import Mathlib

set_option maxRecDepth 10000

/-! Shallow embedding of the APEX medical-bill parsing and validation core
(src/parser.py, src/validator.py, src/models.py).

Modelling conventions: Python floats are modelled as exact rationals extended
with the two infinities and NaN.  float() string conversion models the
inf/nan literals and the saturation of out-of-range magnitudes to infinity
or zero; binary rounding of in-range values and overflow of finite
arithmetic are not modelled (finite arithmetic is exact).
Python dicts keyed by strings are modelled as association lists, Python sets
as lists with membership.  Text is ASCII-faithful: str.lower is modelled with
Char.toLower, which agrees with Python on ASCII. -/

/-- Model of a Python float value: a finite value (modelled exactly as a
rational), positive or negative infinity, or NaN. -/
inductive PyFloat where
  | finite (q : ℚ)
  | inf
  | negInf
  | nan
  deriving DecidableEq, Repr

/-- IEEE-style less-than used by Python float comparison: any comparison
involving NaN is false. -/
def pyLt : PyFloat → PyFloat → Bool
  | .nan, _ => false
  | _, .nan => false
  | .negInf, .negInf => false
  | .negInf, _ => true
  | _, .negInf => false
  | .inf, _ => false
  | .finite _, .inf => true
  | .finite a, .finite b => decide (a < b)

/-- IEEE-style equality used by Python float comparison: NaN equals nothing. -/
def pyEq : PyFloat → PyFloat → Bool
  | .nan, _ => false
  | _, .nan => false
  | .finite a, .finite b => decide (a = b)
  | .inf, .inf => true
  | .negInf, .negInf => true
  | _, _ => false

/-- Python float less-or-equal. -/
def pyLe (a b : PyFloat) : Bool := pyLt a b || pyEq a b

/-- Python float multiplication (finite products computed exactly). -/
def pyMul : PyFloat → PyFloat → PyFloat
  | .nan, _ => .nan
  | _, .nan => .nan
  | .finite a, .finite b => .finite (a * b)
  | .inf, .inf => .inf
  | .inf, .negInf => .negInf
  | .negInf, .inf => .negInf
  | .negInf, .negInf => .inf
  | .inf, .finite b => if b = 0 then .nan else if 0 < b then .inf else .negInf
  | .finite a, .inf => if a = 0 then .nan else if 0 < a then .inf else .negInf
  | .negInf, .finite b => if b = 0 then .nan else if 0 < b then .negInf else .inf
  | .finite a, .negInf => if a = 0 then .nan else if 0 < a then .negInf else .inf

/-- Python float division.  Python raises ZeroDivisionError on a zero finite
divisor; the one division site in validator.py (check_outlier_pricing) only
divides by a strictly positive reference price, so that case is unreachable
there and is mapped to NaN to keep this function total. -/
def pyDiv : PyFloat → PyFloat → PyFloat
  | .nan, _ => .nan
  | _, .nan => .nan
  | .finite a, .finite b => if b = 0 then .nan else .finite (a / b)
  | .finite _, .inf => .finite 0
  | .finite _, .negInf => .finite 0
  | .inf, .finite b => if 0 ≤ b then .inf else .negInf
  | .negInf, .finite b => if 0 ≤ b then .negInf else .inf
  | .inf, _ => .nan
  | .negInf, _ => .nan

/-- Whether a modelled Python float is a finite value. -/
def PyFloat.isFinite : PyFloat → Bool
  | .finite _ => true
  | _ => false

/-- Floor of a rational, computed with integer floor division. -/
def ratFloor (q : ℚ) : ℤ := Int.fdiv q.num (q.den : ℤ)

/-- Round a rational to the nearest integer, ties to even: the rounding used
by Python round() and fixed-point string formatting, idealised to exact
rationals. -/
def rndHalfEven (q : ℚ) : ℤ :=
  let f := ratFloor q
  let r := q - (f : ℚ)
  if r < 1/2 then f
  else if 1/2 < r then f + 1
  else if f % 2 = 0 then f else f + 1

/-- Python round(x, n) on the exact-rational model. -/
def pyRound (q : ℚ) (n : ℕ) : ℚ := (rndHalfEven (q * 10 ^ n) : ℚ) / 10 ^ n

/-- Helper for thousands grouping: input digits least significant first. -/
def groupAux : List Char → List Char
  | a :: b :: c :: d :: rest => a :: b :: c :: ',' :: groupAux (d :: rest)
  | l => l

/-- Insert thousands separators into a digit string (most significant first). -/
def groupDigits (s : List Char) : List Char := (groupAux s.reverse).reverse

/-- Left-pad a digit string with zeros up to width n. -/
def padZeros (l : List Char) (n : ℕ) : List Char := List.replicate (n - l.length) '0' ++ l

/-- Python fixed-point formatting of a finite value, as in format strings
.2f (comma = false) and ,.2f (comma = true), idealised to exact rationals
with round-half-even. -/
def formatQ (q : ℚ) (prec : ℕ) (comma : Bool) : String :=
  let n := rndHalfEven (q * 10 ^ prec)
  let m := n.natAbs
  let ip := m / 10 ^ prec
  let fp := m % 10 ^ prec
  let ipChars := if comma then groupDigits (Nat.toDigits 10 ip) else Nat.toDigits 10 ip
  (if q < 0 then "-" else "") ++ String.mk ipChars
    ++ (if prec = 0 then "" else "." ++ String.mk (padZeros (Nat.toDigits 10 fp) prec))

/-- Python fixed-point formatting of a float; non-finite values format as
inf / -inf / nan exactly as in CPython. -/
def PyFloat.format : PyFloat → ℕ → Bool → String
  | .finite q, prec, comma => formatQ q prec comma
  | .inf, _, _ => "inf"
  | .negInf, _, _ => "-inf"
  | .nan, _, _ => "nan"

/-- Leading sign of a Python numeric literal: (isNegative, rest). -/
def splitSign : List Char → Bool × List Char
  | '+' :: rest => (false, rest)
  | '-' :: rest => (true, rest)
  | cs => (false, cs)

/-- Numeric value of an ASCII digit character. -/
def digitVal (c : Char) : ℕ := c.toNat - 48

/-- Python digitpart after its first digit: ASCII digits, with single
underscores allowed only between digits.  Accumulates (value, digit count). -/
def digitPartAux : ℕ → ℕ → List Char → Option (ℕ × ℕ)
  | v, n, [] => some (v, n)
  | v, n, '_' :: c :: rest =>
      if c.isDigit then digitPartAux (v * 10 + digitVal c) (n + 1) rest else none
  | v, n, c :: rest =>
      if c.isDigit then digitPartAux (v * 10 + digitVal c) (n + 1) rest else none

/-- Python digitpart: a nonempty digit string with optional underscores,
returning (value, digit count). -/
def digitPart : List Char → Option (ℕ × ℕ)
  | [] => none
  | c :: rest => if c.isDigit then digitPartAux (digitVal c) 1 rest else none

/-- Split a char list at the first char satisfying p (separator removed). -/
def splitFirst (p : Char → Bool) : List Char → Option (List Char × List Char)
  | [] => none
  | c :: rest =>
      if p c then some ([], rest)
      else (splitFirst p rest).map (fun q => (c :: q.1, q.2))

/-- Mantissa of the Python float() grammar: digits with an optional decimal
point, at least one digit present. -/
def parseMantissa (cs : List Char) : Option ℚ :=
  match splitFirst (fun c => c == '.') cs with
  | none => (digitPart cs).map (fun v => (v.1 : ℚ))
  | some (i, f) =>
    match i, f with
    | [], [] => none
    | [], f => (digitPart f).map (fun v => (v.1 : ℚ) / 10 ^ v.2)
    | i, [] => (digitPart i).map (fun v => (v.1 : ℚ))
    | i, f =>
      match digitPart i, digitPart f with
      | some vi, some vf => some ((vi.1 : ℚ) + (vf.1 : ℚ) / 10 ^ vf.2)
      | _, _ => none

/-- Exponent of the Python float() grammar: optional sign, then a digitpart. -/
def parseExp (cs : List Char) : Option ℤ :=
  let s := splitSign cs
  (digitPart s.2).map (fun v => if s.1 then -(v.1 : ℤ) else (v.1 : ℤ))

/-- Python float() numeric grammar after the optional leading sign, with the
value computed exactly; saturation to the double range is applied by the
caller (pyFloatOfChars). -/
def parseNumeric (cs : List Char) : Option ℚ :=
  match splitFirst (fun c => c == 'e' || c == 'E') cs with
  | none => parseMantissa cs
  | some (m, e) =>
    match parseMantissa m, parseExp e with
    | some q, some ex => some (q * (10 : ℚ) ^ ex)
    | _, _ => none

/-- Whether, after stripping the optional sign and lowercasing, the literal is
one of the special float literals inf / infinity / nan accepted by float(). -/
def isSpecialLit (cs : List Char) : Bool :=
  let low := (splitSign cs).2.map Char.toLower
  decide (low = "inf".toList ∨ low = "infinity".toList ∨ low = "nan".toList)

/-- CPython float() saturation of the exact parsed decimal value to the
double range: magnitudes at or above 2^1024 - 2^970 (the midpoint above the
largest double, which round-to-nearest-even sends to infinity) overflow to
the corresponding infinity, and magnitudes at or below 2^-1075 (the midpoint
below the least subnormal) flush to zero.  In-range values are kept exact
(binary rounding of representable magnitudes is not modelled). -/
def satDouble (q : ℚ) : PyFloat :=
  if (2 : ℚ) ^ 1024 - 2 ^ 970 ≤ q then PyFloat.inf
  else if q ≤ -((2 : ℚ) ^ 1024 - 2 ^ 970) then PyFloat.negInf
  else if |q| ≤ 1 / 2 ^ 1075 then PyFloat.finite 0
  else PyFloat.finite q

/-- Python float(string) on a list of characters: the special inf/infinity/
nan literals, or the numeric grammar with the parsed value saturated to the
double range as CPython does.  The only call path (clean_amount) has already
removed all whitespace, so no stripping is modelled here. -/
def pyFloatOfChars (cs : List Char) : Option PyFloat :=
  let s := splitSign cs
  let low := s.2.map Char.toLower
  if low = "inf".toList ∨ low = "infinity".toList then
    some (if s.1 then PyFloat.negInf else PyFloat.inf)
  else if low = "nan".toList then some PyFloat.nan
  else (parseNumeric s.2).map (fun q => satDouble (if s.1 then -q else q))

/-- Characters removed by clean_amount via re.sub: dollar sign, comma, and
whitespace (the ASCII whitespace class of Python regex \s). -/
def isStripChar (c : Char) : Bool :=
  c == '$' || c == ',' || c == ' ' || c == '\t' || c == '\n' || c == '\r'
    || c == Char.ofNat 11 || c == Char.ofNat 12

/-- parser.py clean_amount (lines 67-76): returns None on falsy input, strips
currency symbols, commas and whitespace, then converts with float(); any
conversion failure is caught and yields None. -/
def clean_amount : Option String → Option PyFloat
  | none => none
  | some s =>
      if s = "" then none
      else pyFloatOfChars (s.toList.filter (fun c => !isStripChar c))

/-- models.py LineItem.  date-like fields play no role in any validation rule
and are kept as raw strings. -/
structure LineItem where
  cpt_code : Option String := none
  description : Option String := none
  billed_amount : Option PyFloat := none
  national_average_price : Option PyFloat := none
  deriving DecidableEq, Repr

/-- models.py ParsedBill (session_id omitted: an opaque fresh UUID that no
rule reads; date_of_service kept as the raw matched string). -/
structure ParsedBill where
  provider : Option String := none
  patient_name : Option String := none
  claim_id : Option String := none
  date_of_service : Option String := none
  total_billed : Option PyFloat := none
  line_items : List LineItem := []
  cpt_codes : List String := []
  icd_codes : List String := []
  raw_text : String
  deriving DecidableEq, Repr

/-- models.py ValidationFlag. -/
structure ValidationFlag where
  flag_id : String
  flag_type : String
  message : String
  rule_confidence : ℚ
  retrieval_score : Option ℚ := none
  final_confidence : Option ℚ := none
  deriving DecidableEq, Repr

/-- Python truthiness test `not x` for an optional string: true when the
value is None or the empty string. -/
def optStrFalsy : Option String → Bool
  | none => true
  | some s => s == ""

/-- Python truthiness of an optional string (None and the empty string are
falsy). -/
def optStrTruthy : Option String → Bool
  | none => false
  | some s => !(s == "")

/-- Whether needle occurs as a contiguous subsequence of the haystack
(Python substring containment). -/
def containsSeq (needle : List Char) : List Char → Bool
  | [] => needle.isEmpty
  | c :: rest => needle.isPrefixOf (c :: rest) || containsSeq needle rest

/-- The characters of a string, lowercased (Python str.lower on ASCII). -/
def lowerChars (s : String) : List Char := s.toList.map Char.toLower

/-- Python `needle in haystack.lower()` for ASCII text. -/
def containsLower (haystack : String) (needle : String) : Bool :=
  containsSeq needle.toList (lowerChars haystack)

/-- The constant flag built by validator.py check_missing_claim_id. -/
def missing_claim_id_flag : ValidationFlag :=
  { flag_id := "missing_claim_id", flag_type := "warning",
    rule_confidence := 95/100,
    message := "This document appears to be an EOB but is missing a Claim ID." }

/-- validator.py line 11: the EOB heuristic over the raw text. -/
def is_eob (raw_text : String) : Bool :=
  containsLower raw_text "eob" || containsLower raw_text "explanation of benefits"

/-- validator.py check_missing_claim_id (lines 8-20).  The claim-id test is
Python truthiness, so None and the empty string both count as missing. -/
def check_missing_claim_id (parsed_bill : ParsedBill) : Option ValidationFlag :=
  if is_eob parsed_bill.raw_text && optStrFalsy parsed_bill.claim_id then
    some missing_claim_id_flag
  else none

/-- validator.py line 32: OVERCHARGE_THRESHOLD = 5.0. -/
def OVERCHARGE_THRESHOLD : PyFloat := PyFloat.finite 5

/-- The per-item body of validator.py check_outlier_pricing (lines 39-71):
skip items without a usable code and amount, skip codes without pricing data
or with a non-positive median, and flag amounts above 5x the median. -/
def outlierFlag (pricing_data : List (String × PyFloat)) (item : LineItem) :
    Option ValidationFlag :=
  match item.cpt_code, item.billed_amount with
  | some code, some billed =>
    if code = "" then none
    else
      match List.lookup code pricing_data with
      | some median_price =>
        if pyLe median_price (PyFloat.finite 0) then none
        else if pyLt (pyMul median_price OVERCHARGE_THRESHOLD) billed then
          some { flag_id := "outlier_pricing_line_item", flag_type := "warning",
                 message := "Line item for CPT " ++ code ++ " billed at $"
                   ++ billed.format 2 true ++ " is ~"
                   ++ (pyDiv billed median_price).format 1 false
                   ++ "x the median price of $" ++ median_price.format 2 true ++ ".",
                 rule_confidence := 9/10, retrieval_score := none,
                 final_confidence := some 0 }
        else none
      | none => none
  | _, _ => none

/-- validator.py check_outlier_pricing (lines 26-72). -/
def check_outlier_pricing (parsed_bill : ParsedBill)
    (pricing_data : List (String × PyFloat)) : List ValidationFlag :=
  if parsed_bill.line_items = [] then []
  else parsed_bill.line_items.filterMap (outlierFlag pricing_data)

/-- validator.py lines 80-89: the fixed denial keyword list. -/
def DENIAL_KEYWORDS : List String :=
  ["denied", "denial", "not covered", "not a covered benefit",
   "lack of documentation", "out of network", "prior authorization required",
   "service not medically necessary"]

/-- An ASCII single-quote character as a string. -/
def squo : String := String.singleton (Char.ofNat 39)

/-- The flag built by validator.py check_denial_reasons for one keyword. -/
def denialFlag (keyword : String) : ValidationFlag :=
  { flag_id := "denial_reason_found", flag_type := "critical",
    rule_confidence := 98/100,
    message := "Potential denial detected. Found keyword: " ++ squo ++ keyword ++ squo ++ "." }

/-- validator.py check_denial_reasons (lines 74-104): collect a flag per
matching keyword, then keep only the first one (flags[:1]). -/
def check_denial_reasons (parsed_bill : ParsedBill) : List ValidationFlag :=
  ((DENIAL_KEYWORDS.filter (fun kw => containsLower parsed_bill.raw_text kw)).map
    denialFlag).take 1

/-- validator.py lines 117-120: the (code, amount) identity of a line item,
absent when the code is falsy or the amount is None. -/
def itemKey (item : LineItem) : Option (String × PyFloat) :=
  match item.cpt_code, item.billed_amount with
  | some code, some amount => if code = "" then none else some (code, amount)
  | _, _ => none

/-- The flag built by validator.py check_duplicates for one duplicate pair. -/
def dupFlag (k : String × PyFloat) : ValidationFlag :=
  { flag_id := "duplicate_line_item", flag_type := "error", rule_confidence := 1,
    message := "Duplicate line item found: CPT " ++ k.1 ++ " for $"
      ++ k.2.format 2 true ++ "." }

/-- The loop of validator.py check_duplicates (lines 114-131): one linear pass
over the items holding the set of previously seen (code, amount) pairs. -/
def dupPass (seen : List (String × PyFloat)) : List LineItem → List ValidationFlag
  | [] => []
  | item :: rest =>
    match itemKey item with
    | none => dupPass seen rest
    | some k =>
      if k ∈ seen then dupFlag k :: dupPass seen rest
      else dupPass (k :: seen) rest

/-- validator.py check_duplicates (lines 105-133). -/
def check_duplicates (parsed_bill : ParsedBill) : List ValidationFlag :=
  if parsed_bill.line_items.length < 2 then []
  else dupPass [] parsed_bill.line_items

/-- The flag built by validator.py check_invalid_cpt_codes for one code. -/
def invalidFlag (code : String) : ValidationFlag :=
  { flag_id := "invalid_cpt_code", flag_type := "error", rule_confidence := 1,
    message := "Invalid or non-billable CPT code found: " ++ code ++ "." }

/-- validator.py check_invalid_cpt_codes (lines 134-149): flag every line item
whose code is truthy and not a key of the reference table. -/
def check_invalid_cpt_codes (parsed_bill : ParsedBill) (valid_codes : List String) :
    List ValidationFlag :=
  if parsed_bill.line_items = [] then []
  else parsed_bill.line_items.filterMap (fun item =>
    match item.cpt_code with
    | some code =>
        if code ≠ "" ∧ code ∉ valid_codes then some (invalidFlag code) else none
    | none => none)

/-- validator.py run_validations (lines 151-177). -/
def run_validations (parsed_bill : ParsedBill)
    (pricing_data : List (String × PyFloat)) : List ValidationFlag :=
  let valid_cpt_codes := pricing_data.map Prod.fst
  (match check_missing_claim_id parsed_bill with
   | some f => [f]
   | none => [])
    ++ check_outlier_pricing parsed_bill pricing_data
    ++ check_denial_reasons parsed_bill
    ++ check_duplicates parsed_bill
    ++ check_invalid_cpt_codes parsed_bill valid_cpt_codes

/-- parser.py line 332 inside the validate-bill endpoint:
flags = run_validations(parsed_data, PRICING_DATA) if PRICING_DATA else []. -/
def parse_bill_flags (parsed_bill : ParsedBill)
    (pricing_data : List (String × PyFloat)) : List ValidationFlag :=
  if pricing_data = [] then [] else run_validations parsed_bill pricing_data

/-- One match of the EOB line regex of parser.py parse_line_items: group 1 is
the date, group 2 the billed amount, group 3 the per-line responsibility. -/
structure EobLineMatch where
  date_str : String
  billed_str : String
  resp_str : String
  deriving DecidableEq, Repr

/-- parser.py parse_line_items (lines 97-127), parameterised by the list of
regex matches (the regex engine is an external collaborator).  Every match
yields a LineItem with cpt_code explicitly None and no reference price. -/
def parse_line_items (ms : List EobLineMatch) : List LineItem :=
  ms.map (fun m =>
    { cpt_code := none,
      description := some ("Service on " ++ m.date_str),
      billed_amount := clean_amount (some m.billed_str),
      national_average_price := none })

/-- Python truthiness of a float: only 0.0 (and -0.0) are falsy; infinities
and NaN are truthy. -/
def pyFalsy : PyFloat → Bool
  | .finite q => q == 0
  | _ => false

/-- Python x == 0 on a float (false for NaN and the infinities). -/
def pyEqZero (f : PyFloat) : Bool := pyEq f (PyFloat.finite 0)

/-- parser.py parse_bill_text lines 139-162: resolution of the total billed
amount from the three candidate pattern-match strings (total charges style,
amount due style, patient responsibility style). -/
def resolve_total_billed (total_charges_str amount_due_str patient_resp_str :
    Option String) : Option PyFloat :=
  let total_billed_str :=
    if optStrTruthy total_charges_str then total_charges_str else amount_due_str
  let final_billed := clean_amount total_billed_str
  let substitute :=
    match final_billed with
    | none => true
    | some f => pyFalsy f || pyEqZero f
  if substitute then clean_amount patient_resp_str else final_billed

/-- parser.py line 350: RULE_CONFIDENCE_WEIGHT = 0.6. -/
def RULE_CONFIDENCE_WEIGHT : ℚ := 6/10

/-- parser.py line 351: RETRIEVAL_SCORE_WEIGHT = 0.4. -/
def RETRIEVAL_SCORE_WEIGHT : ℚ := 4/10

/-- parser.py calculate_final_confidence lines 360-362: the maximum relevance
score over all retrieved documents, 0.0 when none were retrieved. -/
def bestScore (retrieved : List (String × ℚ)) : ℚ :=
  match retrieved.map Prod.snd with
  | [] => 0
  | x :: xs => xs.foldl max x

/-- parser.py calculate_final_confidence (lines 353-374). -/
def calculate_final_confidence (flags : List ValidationFlag)
    (retrieved : List (String × ℚ)) : List ValidationFlag :=
  flags.map (fun flag =>
    { flag with
      retrieval_score := some (pyRound (bestScore retrieved) 4),
      final_confidence := some (pyRound (flag.rule_confidence * RULE_CONFIDENCE_WEIGHT
        + bestScore retrieved * RETRIEVAL_SCORE_WEIGHT) 4) })

/-- Specification-side helper for duplicate detection: whether an item has a
usable (code, amount) pair already carried by some item of the prefix. -/
def seenBefore (pre : List LineItem) (item : LineItem) : Bool :=
  match itemKey item with
  | none => false
  | some k => pre.any (fun p => decide (itemKey p = some k))

/-- Specification-side count of duplicate occurrences: an item counts exactly
when its (code, amount) pair is present and already occurred earlier. -/
def dupSpecCount (pre : List LineItem) : List LineItem → ℕ
  | [] => 0
  | item :: rest =>
      (if seenBefore pre item then 1 else 0) + dupSpecCount (pre ++ [item]) rest

/-! ## Helper lemmas -/

theorem satDouble_cases (q : ℚ) :
    (∃ r, satDouble q = PyFloat.finite r)
    ∨ ((2 : ℚ) ^ 1024 - 2 ^ 970 ≤ |q|
        ∧ (satDouble q = PyFloat.inf ∨ satDouble q = PyFloat.negInf)) := by
  unfold satDouble
  split
  · rename_i h
    exact Or.inr ⟨le_trans h (le_abs_self q), Or.inl rfl⟩
  · split
    · rename_i h1 h2
      refine Or.inr ⟨?_, Or.inr rfl⟩
      have hneg : (2 : ℚ) ^ 1024 - 2 ^ 970 ≤ -q := by linarith
      exact le_trans hneg (neg_le_abs q)
    · split
      · exact Or.inl ⟨0, rfl⟩
      · exact Or.inl ⟨q, rfl⟩

theorem pyFloatOfChars_shape (cs : List Char) :
    pyFloatOfChars cs = none
    ∨ (∃ q, pyFloatOfChars cs = some (PyFloat.finite q))
    ∨ isSpecialLit cs = true
    ∨ (∃ q, parseNumeric (splitSign cs).2 = some q
        ∧ (2 : ℚ) ^ 1024 - 2 ^ 970 ≤ |q|) := by
  simp only [pyFloatOfChars, isSpecialLit]
  split
  · rename_i h
    right; right; left
    simp only [decide_eq_true_eq]
    tauto
  · split
    · rename_i h
      right; right; left
      simp only [decide_eq_true_eq]
      tauto
    · cases hp : parseNumeric (splitSign cs).2 with
      | none => left; simp [hp]
      | some q =>
          rcases satDouble_cases (if (splitSign cs).1 then -q else q) with
            ⟨r, hr⟩ | ⟨habs, _⟩
          · right; left
            exact ⟨r, by simp [hp, hr]⟩
          · right; right; right
            refine ⟨q, rfl, ?_⟩
            cases hsgn : (splitSign cs).1 with
            | true => rw [hsgn, if_pos rfl, abs_neg] at habs; exact habs
            | false => rw [hsgn] at habs; simpa using habs

/-! ## Claim theorems -/

/-- C1: when the price reference table is empty, the validate-bill pipeline
(parser.py line 332) skips validation entirely, so in particular no line item
of any bill is flagged with kind invalid_cpt_code. -/
theorem c1_empty_pricing_no_invalid_cpt_findings (bill : ParsedBill) :
    parse_bill_flags bill [] = []
    ∧ (parse_bill_flags bill []).countP
        (fun f => f.flag_id == "invalid_cpt_code") = 0 := by
  constructor <;> simp [parse_bill_flags]

/-- C3 counterexample: clean_amount applied to the string inf succeeds and
returns a non-finite float, so its result is not always absent-or-finite. -/
theorem c3_counterexample :
    clean_amount (some "inf") = some PyFloat.inf
    ∧ PyFloat.isFinite PyFloat.inf = false := by
  constructor <;> decide

/-- C3 amended: clean_amount is total (modelled Option-valued, mirroring the
try/except) and its result is absent or a finite float, except that a
non-finite result can arise, and only from a cleaned input that is a signed
inf/infinity/nan literal (case-insensitive) or a numeric literal whose parsed
magnitude reaches the double overflow threshold 2^1024 - 2^970; in
particular the overflowing input 1e999 yields positive infinity. -/
theorem c3_clean_amount_amended :
    (∀ s : Option String,
        clean_amount s = none
        ∨ (∃ q, clean_amount s = some (PyFloat.finite q))
        ∨ (∃ str, s = some str
            ∧ (isSpecialLit (str.toList.filter (fun c => !isStripChar c)) = true
               ∨ ∃ q, parseNumeric
                     (splitSign (str.toList.filter (fun c => !isStripChar c))).2
                   = some q
                 ∧ (2 : ℚ) ^ 1024 - 2 ^ 970 ≤ |q|)))
    ∧ clean_amount (some "1e999") = some PyFloat.inf := by
  constructor
  · intro s
    match s with
    | none => left; rfl
    | some str =>
      by_cases h : str = ""
      · left; simp [clean_amount, h]
      · have hc : clean_amount (some str)
            = pyFloatOfChars (str.toList.filter (fun c => !isStripChar c)) := by
          simp [clean_amount, h]
        rcases pyFloatOfChars_shape (str.toList.filter (fun c => !isStripChar c)) with
          h1 | ⟨q, h1⟩ | h1 | h1
        · left; rw [hc]; exact h1
        · right; left; exact ⟨q, by rw [hc]; exact h1⟩
        · right; right; exact ⟨str, rfl, Or.inl h1⟩
        · right; right; exact ⟨str, rfl, Or.inr h1⟩
  · have hstep : clean_amount (some "1e999")
        = some (satDouble (((1 : ℕ) : ℚ) * (10 : ℚ) ^ (((999 : ℕ) : ℤ)))) := rfl
    have hbig : (2 : ℚ) ^ 1024 - 2 ^ 970
        ≤ ((1 : ℕ) : ℚ) * (10 : ℚ) ^ (((999 : ℕ) : ℤ)) := by
      rw [zpow_natCast]
      push_cast
      norm_num
    rw [hstep]
    unfold satDouble
    rw [if_pos hbig]

/-- C4 counterexample: a bill whose raw text contains an EOB keyword and whose
claim identifier is present but equal to the empty string still triggers the
missing-claim-ID rule, so the rule does fire with a present claim identifier. -/
theorem c4_counterexample :
    ({ raw_text := "eob", claim_id := some "" : ParsedBill }.claim_id ≠ none)
    ∧ check_missing_claim_id { raw_text := "eob", claim_id := some "" } ≠ none := by
  constructor <;> decide

/-- C4 amended: the missing-claim-ID rule fires if and only if the raw text
contains eob or explanation of benefits case-insensitively AND the claim
identifier is absent or the empty string; the finding kind is
missing_claim_id. -/
theorem c4_missing_claim_id_rule (bill : ParsedBill) :
    ((check_missing_claim_id bill).isSome
      = (is_eob bill.raw_text && optStrFalsy bill.claim_id))
    ∧ ∀ f, check_missing_claim_id bill = some f → f.flag_id = "missing_claim_id" := by
  constructor
  · unfold check_missing_claim_id
    split <;> simp_all
  · intro f hf
    unfold check_missing_claim_id at hf
    split at hf
    · cases hf; rfl
    · cases hf

/-- Witness for the amended C4 theorem at a concrete EOB bill. -/
theorem c4_missing_claim_id_rule_witness :
    missing_claim_id_flag.flag_id = "missing_claim_id" :=
  (c4_missing_claim_id_rule { raw_text := "eob", claim_id := none }).2
    missing_claim_id_flag rfl

/-- C10: the missing-claim-ID rule treats an empty-string claim identifier the
same as an absent one: on every bill whose raw text passes the EOB test and
whose claim_id is the empty string, the missing_claim_id finding is produced. -/
theorem c10_empty_claim_id_missing (bill : ParsedBill)
    (h1 : is_eob bill.raw_text = true) (h2 : bill.claim_id = some "") :
    check_missing_claim_id bill = some missing_claim_id_flag := by
  unfold check_missing_claim_id
  rw [h1, h2]
  simp [optStrFalsy]

/-- Witness for C10 at a concrete bill. -/
theorem c10_empty_claim_id_missing_witness :
    check_missing_claim_id { raw_text := "eob", claim_id := some "" }
      = some missing_claim_id_flag :=
  c10_empty_claim_id_missing { raw_text := "eob", claim_id := some "" }
    (by decide) rfl

/-- C6: the denial-keyword rule produces at most one finding per bill (only
the first keyword match is kept), it produces exactly one finding precisely
when at least one of the fixed keywords occurs case-insensitively in the raw
text, and every finding it produces has kind denial_reason_found. -/
theorem c6_denial_keyword_rule (bill : ParsedBill) :
    (check_denial_reasons bill).length ≤ 1
    ∧ ((check_denial_reasons bill).length = 1
        ↔ DENIAL_KEYWORDS.any (fun kw => containsLower bill.raw_text kw) = true)
    ∧ (check_denial_reasons bill).all
        (fun f => f.flag_id == "denial_reason_found") = true := by
  have hd : check_denial_reasons bill
      = ((DENIAL_KEYWORDS.filter (fun kw => containsLower bill.raw_text kw)).map
          denialFlag).take 1 := rfl
  cases hf : DENIAL_KEYWORDS.filter (fun kw => containsLower bill.raw_text kw) with
  | nil =>
    rw [hd, hf]
    refine ⟨by simp, ?_, by simp⟩
    simp only [List.map_nil, List.take_nil, List.length_nil]
    constructor
    · omega
    · intro h
      rcases List.any_eq_true.1 h with ⟨kw, hkw, hc⟩
      have hmem : kw ∈ DENIAL_KEYWORDS.filter
          (fun k => containsLower bill.raw_text k) :=
        List.mem_filter.2 ⟨hkw, hc⟩
      rw [hf] at hmem
      cases hmem
  | cons a as =>
    rw [hd, hf]
    have htake : ((a :: as).map denialFlag).take 1 = [denialFlag a] := by
      simp
    rw [htake]
    refine ⟨by simp, ?_, by simp [denialFlag]⟩
    constructor
    · intro _
      have ha : a ∈ DENIAL_KEYWORDS.filter
          (fun k => containsLower bill.raw_text k) := by
        rw [hf]; exact List.mem_cons_self a as
      have hfa := List.mem_filter.1 ha
      exact List.any_eq_true.2 ⟨a, hfa.1, hfa.2⟩
    · intro _; simp

/-- C7: the assembler resolves the total: the total-charges style match is
preferred when present; otherwise the amount-due style match is used; and
whenever the parsed total is absent or exactly zero the patient-responsibility
candidate is substituted.  The hypothesis rules out an empty-string match,
which the source patterns cannot produce (their capture group always contains
a decimal point). -/
theorem c7_total_billed_resolution
    (total_charges_str amount_due_str patient_resp_str : Option String)
    (h : total_charges_str ≠ some "") :
    resolve_total_billed total_charges_str amount_due_str patient_resp_str
      = (let base := clean_amount
            (if total_charges_str.isSome then total_charges_str else amount_due_str)
         if base = none ∨ base = some (PyFloat.finite 0)
         then clean_amount patient_resp_str else base) := by
  have ht : optStrTruthy total_charges_str = total_charges_str.isSome := by
    cases htc : total_charges_str with
    | none => rfl
    | some s =>
      have hs : s ≠ "" := fun he => h (by rw [htc, he])
      simp [optStrTruthy, hs]
  simp only [resolve_total_billed, ht]
  cases hb : clean_amount (if total_charges_str.isSome then total_charges_str
      else amount_due_str) with
  | none => simp [hb]
  | some f =>
    cases f with
    | finite q =>
      by_cases hq : q = 0
      · subst hq
        simp [hb, pyFalsy, pyEqZero, pyEq]
      · simp [hb, pyFalsy, pyEqZero, pyEq, hq]
    | inf => simp [hb, pyFalsy, pyEqZero, pyEq]
    | negInf => simp [hb, pyFalsy, pyEqZero, pyEq]
    | nan => simp [hb, pyFalsy, pyEqZero, pyEq]

/-- Witness for C7 at concrete candidates, exercising the zero-total
fallback to the patient-responsibility candidate. -/
theorem c7_total_billed_resolution_witness :
    resolve_total_billed (some "0.00") (some "50.00") (some "25.00")
      = (let base := clean_amount
            (if (some "0.00" : Option String).isSome
             then some "0.00" else some "50.00")
         if base = none ∨ base = some (PyFloat.finite 0)
         then clean_amount (some "25.00") else base) :=
  c7_total_billed_resolution (some "0.00") (some "50.00") (some "25.00") (by decide)

theorem dupPass_length (l : List LineItem) :
    ∀ (seen : List (String × PyFloat)) (pre : List LineItem),
      (∀ k, k ∈ seen ↔ some k ∈ pre.map itemKey) →
      (dupPass seen l).length = dupSpecCount pre l := by
  induction l with
  | nil => intro seen pre _; rfl
  | cons item rest ih =>
    intro seen pre h
    rw [dupPass, dupSpecCount]
    cases hk : itemKey item with
    | none =>
      have hsb : seenBefore pre item = false := by
        simp [seenBefore, hk]
      rw [hsb]
      simp only [if_neg Bool.false_ne_true, Nat.zero_add]
      exact ih seen (pre ++ [item]) (fun k => by
        rw [h k]
        simp [hk])
    | some k =>
      have hsb : seenBefore pre item
          = pre.any (fun p => decide (itemKey p = some k)) := by
        simp [seenBefore, hk]
      show (if k ∈ seen then dupFlag k :: dupPass seen rest
            else dupPass (k :: seen) rest).length
          = (if seenBefore pre item = true then 1 else 0)
            + dupSpecCount (pre ++ [item]) rest
      by_cases hm : k ∈ seen
      · have hpre : some k ∈ pre.map itemKey := (h k).1 hm
        have hany : pre.any (fun p => decide (itemKey p = some k)) = true := by
          simp only [List.any_eq_true, decide_eq_true_eq]
          rcases List.mem_map.1 hpre with ⟨p, hp, hpe⟩
          exact ⟨p, hp, hpe⟩
        rw [if_pos hm, hsb, hany, if_pos rfl]
        simp only [List.length_cons]
        rw [ih seen (pre ++ [item]) (fun x => by
          rw [h x]
          constructor
          · intro hx; simp [List.mem_append, hx]
          · intro hx
            rcases List.mem_append.1 ((List.map_append itemKey pre [item]) ▸ hx) with
              hx1 | hx2
            · exact hx1
            · simp only [List.map_cons, List.map_nil, List.mem_singleton, hk] at hx2
              rw [Option.some.injEq] at hx2
              rw [hx2]
              exact hpre)]
        omega
      · have hany : pre.any (fun p => decide (itemKey p = some k)) = false := by
          cases hca : pre.any (fun p => decide (itemKey p = some k)) with
          | false => rfl
          | true =>
            exfalso
            rcases List.any_eq_true.1 hca with ⟨p, hp, hpe⟩
            exact hm ((h k).2 (List.mem_map.2 ⟨p, hp, of_decide_eq_true hpe⟩))
        rw [if_neg hm, hsb, hany, if_neg Bool.false_ne_true]
        simp only [Nat.zero_add]
        exact ih (k :: seen) (pre ++ [item]) (fun x => by
          constructor
          · intro hx
            rcases List.mem_cons.1 hx with hx1 | hx2
            · subst hx1; simp [List.map_append, hk]
            · have := (h x).1 hx2
              simp [List.map_append, this]
          · intro hx
            rcases List.mem_append.1 ((List.map_append itemKey pre [item]) ▸ hx) with
              hx1 | hx2
            · exact List.mem_cons.2 (Or.inr ((h x).2 hx1))
            · simp only [List.map_cons, List.map_nil, List.mem_singleton, hk] at hx2
              rw [Option.some.injEq] at hx2
              exact List.mem_cons.2 (Or.inl hx2))

theorem dupSpecCount_short (l : List LineItem) (hl : l.length < 2) :
    dupSpecCount [] l = 0 := by
  match l, hl with
  | [], _ => rfl
  | [x], _ =>
      rw [dupSpecCount, dupSpecCount]
      have : seenBefore [] x = false := by
        cases hk : itemKey x <;> simp [seenBefore, hk]
      rw [this]
      rfl

theorem dupPass_flag_ids (l : List LineItem) :
    ∀ seen, (dupPass seen l).all (fun f => f.flag_id == "duplicate_line_item") = true := by
  induction l with
  | nil => intro seen; rfl
  | cons item rest ih =>
    intro seen
    rw [dupPass]
    cases hk : itemKey item with
    | none => exact ih seen
    | some k =>
      show (if k ∈ seen then dupFlag k :: dupPass seen rest
            else dupPass (k :: seen) rest).all
          (fun f => f.flag_id == "duplicate_line_item") = true
      by_cases hm : k ∈ seen
      · rw [if_pos hm]
        simp only [List.all_cons, ih seen, Bool.and_true]
        rfl
      · rw [if_neg hm]
        exact ih (k :: seen)

/-- C2: duplicate detection is a single linear pass over the set of
previously seen (code, amount) pairs: the number of duplicate_line_item
findings equals the number of items whose pair is present and already
occurred at an earlier position (so a first occurrence is never counted and
each later occurrence counts exactly once); all findings carry kind
duplicate_line_item; and on the list [(A,10), (B,20), (A,10)] exactly one
finding is produced, for the third item's pair. -/
theorem c2_duplicate_detection :
    (∀ bill : ParsedBill,
        (check_duplicates bill).length = dupSpecCount [] bill.line_items
        ∧ (check_duplicates bill).all
            (fun f => f.flag_id == "duplicate_line_item") = true)
    ∧ check_duplicates { raw_text := "t", line_items :=
        [{ cpt_code := some "A", billed_amount := some (PyFloat.finite 10) },
         { cpt_code := some "B", billed_amount := some (PyFloat.finite 20) },
         { cpt_code := some "A", billed_amount := some (PyFloat.finite 10) }] }
      = [dupFlag ("A", PyFloat.finite 10)] := by
  constructor
  · intro bill
    constructor
    · unfold check_duplicates
      split
      · rename_i hlt
        rw [dupSpecCount_short bill.line_items hlt]
        rfl
      · exact dupPass_length bill.line_items [] [] (fun k => by simp)
    · unfold check_duplicates
      split
      · rfl
      · exact dupPass_flag_ids bill.line_items []
  · rfl

theorem ratFloor_intCast (n : ℤ) : ratFloor (n : ℚ) = n := by
  simp [ratFloor]

theorem rndHalfEven_intCast (n : ℤ) : rndHalfEven (n : ℚ) = n := by
  simp only [rndHalfEven, ratFloor_intCast]
  norm_num

theorem formatQ_600 : formatQ 600 2 true = "600.00" := by
  have h1 : (600 : ℚ) * 10 ^ 2 = ((60000 : ℤ) : ℚ) := by norm_num
  simp only [formatQ, h1, rndHalfEven_intCast]
  rfl

theorem formatQ_100 : formatQ 100 2 true = "100.00" := by
  have h1 : (100 : ℚ) * 10 ^ 2 = ((10000 : ℤ) : ℚ) := by norm_num
  simp only [formatQ, h1, rndHalfEven_intCast]
  rfl

theorem formatQ_ratio : formatQ ((600 : ℚ) / 100) 1 false = "6.0" := by
  have h1 : ((600 : ℚ) / 100) * 10 ^ 1 = ((60 : ℤ) : ℚ) := by norm_num
  have h2 : ¬ ((600 : ℚ) / 100) < 0 := by norm_num
  simp only [formatQ, h1, rndHalfEven_intCast, if_neg h2]
  rfl

theorem outlier_filterMap (bill : ParsedBill) (pricing : List (String × PyFloat)) :
    check_outlier_pricing bill pricing
      = bill.line_items.filterMap (outlierFlag pricing) := by
  unfold check_outlier_pricing
  split
  · rename_i hnil
    rw [hnil]
    rfl
  · rfl

theorem outlierFlag_eval (pricing : List (String × PyFloat)) (item : LineItem)
    (code : String) (b m : ℚ)
    (h1 : item.cpt_code = some code) (h2 : code ≠ "")
    (h3 : item.billed_amount = some (PyFloat.finite b))
    (h4 : List.lookup code pricing = some (PyFloat.finite m))
    (h5 : 0 < m) (h6 : m * 5 < b) :
    outlierFlag pricing item = some
      { flag_id := "outlier_pricing_line_item", flag_type := "warning",
        message := "Line item for CPT " ++ code ++ " billed at $"
          ++ formatQ b 2 true ++ " is ~" ++ formatQ (b / m) 1 false
          ++ "x the median price of $" ++ formatQ m 2 true ++ ".",
        rule_confidence := 9/10, retrieval_score := none,
        final_confidence := some 0 } := by
  have hle : pyLe (PyFloat.finite m) (PyFloat.finite 0) = false := by
    have hm1 : ¬ (m < 0) := by linarith
    simp [pyLe, pyLt, pyEq, hm1, h5.ne']
  have hmul : pyMul (PyFloat.finite m) OVERCHARGE_THRESHOLD
      = PyFloat.finite (m * 5) := rfl
  have hlt : pyLt (PyFloat.finite (m * 5)) (PyFloat.finite b) = true := by
    simp [pyLt, h6]
  have hdiv : pyDiv (PyFloat.finite b) (PyFloat.finite m)
      = PyFloat.finite (b / m) := by
    simp [pyDiv, h5.ne']
  simp only [outlierFlag, h1, h3, if_neg h2, h4, hle, hmul, hlt, hdiv,
    Bool.false_eq_true, if_false, if_true]
  rfl

/-- C5: the outlier-pricing rule evaluates per line item
(check_outlier_pricing is the item-wise filterMap of its per-item body); a
line item with a usable code and amount whose code has reference price m > 0
and whose billed amount b exceeds 5 times m yields exactly one
outlier_pricing_line_item finding whose message embeds the multiplier b / m
formatted to one decimal place; and the concrete bill with code 99213 billed
600 against reference price 100 yields exactly one finding whose message
reports ~6.0x the median price of $100.00. -/
theorem c5_outlier_pricing :
    (∀ (bill : ParsedBill) (pricing : List (String × PyFloat)),
        check_outlier_pricing bill pricing
          = bill.line_items.filterMap (outlierFlag pricing))
    ∧ (∀ (pricing : List (String × PyFloat)) (item : LineItem)
        (code : String) (b m : ℚ),
        item.cpt_code = some code → code ≠ "" →
        item.billed_amount = some (PyFloat.finite b) →
        List.lookup code pricing = some (PyFloat.finite m) →
        0 < m → m * 5 < b →
        outlierFlag pricing item = some
          { flag_id := "outlier_pricing_line_item", flag_type := "warning",
            message := "Line item for CPT " ++ code ++ " billed at $"
              ++ formatQ b 2 true ++ " is ~" ++ formatQ (b / m) 1 false
              ++ "x the median price of $" ++ formatQ m 2 true ++ ".",
            rule_confidence := 9/10, retrieval_score := none,
            final_confidence := some 0 })
    ∧ check_outlier_pricing
        { raw_text := "b", line_items :=
            [{ cpt_code := some "99213",
               billed_amount := some (PyFloat.finite 600) }] }
        [("99213", PyFloat.finite 100)]
      = [{ flag_id := "outlier_pricing_line_item", flag_type := "warning",
           message := "Line item for CPT 99213 billed at $600.00 is ~6.0x the median price of $100.00.",
           rule_confidence := 9/10, retrieval_score := none,
           final_confidence := some 0 }]
    ∧ ("Line item for CPT 99213 billed at $600.00 is "
        ++ "~6.0x the median price of $100.00.")
      = "Line item for CPT 99213 billed at $600.00 is ~6.0x the median price of $100.00." := by
  refine ⟨outlier_filterMap, fun pricing item code b m h1 h2 h3 h4 h5 h6 =>
    outlierFlag_eval pricing item code b m h1 h2 h3 h4 h5 h6, ?_, rfl⟩
  rw [outlier_filterMap]
  have he := outlierFlag_eval [("99213", PyFloat.finite 100)]
    { cpt_code := some "99213", billed_amount := some (PyFloat.finite 600) }
    "99213" 600 100 rfl (by decide) rfl rfl (by norm_num) (by norm_num)
  simp only [List.filterMap_cons, List.filterMap_nil, he]
  rw [formatQ_600, formatQ_ratio, formatQ_100]
  rfl

/-- Witness for the per-item conjunct of the C5 theorem at the concrete
99213 line item. -/
theorem c5_outlier_pricing_witness :
    outlierFlag [("99213", PyFloat.finite 100)]
      { cpt_code := some "99213", billed_amount := some (PyFloat.finite 600) }
      = some
        { flag_id := "outlier_pricing_line_item", flag_type := "warning",
          message := "Line item for CPT " ++ "99213" ++ " billed at $"
            ++ formatQ 600 2 true ++ " is ~" ++ formatQ ((600 : ℚ) / 100) 1 false
            ++ "x the median price of $" ++ formatQ 100 2 true ++ ".",
          rule_confidence := 9/10, retrieval_score := none,
          final_confidence := some 0 } :=
  c5_outlier_pricing.2.1 [("99213", PyFloat.finite 100)]
    { cpt_code := some "99213", billed_amount := some (PyFloat.finite 600) }
    "99213" 600 100 rfl (by decide) rfl rfl (by norm_num) (by norm_num)

theorem le_foldl_max (xs : List ℚ) : ∀ x : ℚ, x ≤ xs.foldl max x := by
  induction xs with
  | nil => intro x; exact le_refl x
  | cons y ys ih =>
    intro x
    simp only [List.foldl_cons]
    exact le_trans (le_max_left x y) (ih (max x y))

theorem mem_le_foldl_max (xs : List ℚ) :
    ∀ (x s : ℚ), s ∈ xs → s ≤ xs.foldl max x := by
  induction xs with
  | nil => intro x s hs; cases hs
  | cons y ys ih =>
    intro x s hs
    simp only [List.foldl_cons]
    rcases List.mem_cons.1 hs with h1 | h2
    · subst h1
      exact le_trans (le_max_right x s) (le_foldl_max ys (max x s))
    · exact ih (max x y) s h2

theorem foldl_max_mem (xs : List ℚ) :
    ∀ x : ℚ, xs.foldl max x = x ∨ xs.foldl max x ∈ xs := by
  induction xs with
  | nil => intro x; left; rfl
  | cons y ys ih =>
    intro x
    simp only [List.foldl_cons]
    rcases ih (max x y) with h1 | h2
    · rcases max_choice x y with hm | hm
      · left; rw [h1, hm]
      · right; rw [h1, hm]; exact List.mem_cons_self y ys
    · right; exact List.mem_cons_of_mem y h2

theorem bestScore_le (retrieved : List (String × ℚ)) (s : ℚ)
    (hs : s ∈ retrieved.map Prod.snd) : s ≤ bestScore retrieved := by
  cases hm : retrieved.map Prod.snd with
  | nil => rw [hm] at hs; cases hs
  | cons x xs =>
    have hb : bestScore retrieved = xs.foldl max x := by
      unfold bestScore; rw [hm]
    rw [hb]
    rw [hm] at hs
    rcases List.mem_cons.1 hs with h1 | h2
    · subst h1; exact le_foldl_max xs s
    · exact mem_le_foldl_max xs x s h2

theorem bestScore_mem (retrieved : List (String × ℚ)) (h : retrieved ≠ []) :
    bestScore retrieved ∈ retrieved.map Prod.snd := by
  cases retrieved with
  | nil => exact absurd rfl h
  | cons d ds =>
    have hb : bestScore (d :: ds) = (ds.map Prod.snd).foldl max d.2 := rfl
    rw [hb]
    rcases foldl_max_mem (ds.map Prod.snd) d.2 with h1 | h2
    · rw [h1]; simp
    · simp [h2]

theorem pyRound_half : pyRound (1/2) 4 = 1/2 := by
  have h1 : (1/2 : ℚ) * 10 ^ 4 = ((5000 : ℤ) : ℚ) := by norm_num
  simp only [pyRound, h1, rndHalfEven_intCast]
  norm_num

theorem pyRound_blend :
    pyRound ((9/10 : ℚ) * RULE_CONFIDENCE_WEIGHT
      + (1/2 : ℚ) * RETRIEVAL_SCORE_WEIGHT) 4 = 74/100 := by
  have h1 : ((9/10 : ℚ) * RULE_CONFIDENCE_WEIGHT
      + (1/2 : ℚ) * RETRIEVAL_SCORE_WEIGHT) * 10 ^ 4 = ((7400 : ℤ) : ℚ) := by
    norm_num [RULE_CONFIDENCE_WEIGHT, RETRIEVAL_SCORE_WEIGHT]
  simp only [pyRound, h1, rndHalfEven_intCast]
  norm_num

/-- C8: the confidence combiner sets, on every finding, retrieval_score to
best rounded to 4 decimals and final_confidence to
rule_confidence x 0.6 + best x 0.4 rounded to 4 decimals, where best is the
maximum relevance score over the retrieved pairs (0 when none were
retrieved); and rule confidence 0.9 with maximal relevance 0.5 yields final
confidence 0.74. -/
theorem c8_confidence_combiner :
    (∀ (flags : List ValidationFlag) (retrieved : List (String × ℚ)) (i : ℕ),
        (calculate_final_confidence flags retrieved)[i]?
          = (flags[i]?).map (fun f =>
              { f with
                retrieval_score := some (pyRound (bestScore retrieved) 4),
                final_confidence := some (pyRound
                  (f.rule_confidence * RULE_CONFIDENCE_WEIGHT
                    + bestScore retrieved * RETRIEVAL_SCORE_WEIGHT) 4) }))
    ∧ (∀ (retrieved : List (String × ℚ)) (s : ℚ),
        s ∈ retrieved.map Prod.snd → s ≤ bestScore retrieved)
    ∧ bestScore [] = 0
    ∧ (∀ retrieved : List (String × ℚ),
        retrieved ≠ [] → bestScore retrieved ∈ retrieved.map Prod.snd)
    ∧ calculate_final_confidence
        [{ flag_id := "outlier_pricing_line_item", flag_type := "warning",
           message := "m", rule_confidence := 9/10 }]
        [("evidence", 1/2)]
      = [{ flag_id := "outlier_pricing_line_item", flag_type := "warning",
           message := "m", rule_confidence := 9/10,
           retrieval_score := some (1/2),
           final_confidence := some (74/100) }] := by
  refine ⟨?_, bestScore_le, rfl, bestScore_mem, ?_⟩
  · intro flags retrieved i
    simp [calculate_final_confidence, List.getElem?_map]
  · have hbs : bestScore [("evidence", (1/2 : ℚ))] = 1/2 := rfl
    simp only [calculate_final_confidence, List.map_cons, List.map_nil, hbs,
      pyRound_half, pyRound_blend]

/-- Witness for the C8 theorem conjuncts with hypotheses, at a concrete
retrieved list. -/
theorem c8_confidence_combiner_witness :
    ((1/4 : ℚ) ≤ bestScore [("a", 1/4), ("b", 1/2)])
    ∧ bestScore [("a", 1/4), ("b", 1/2)]
        ∈ ([("a", (1/4 : ℚ)), ("b", 1/2)].map Prod.snd) :=
  ⟨c8_confidence_combiner.2.1 [("a", 1/4), ("b", 1/2)] (1/4) (by simp),
   c8_confidence_combiner.2.2.2.1 [("a", 1/4), ("b", 1/2)] (by simp)⟩

theorem filterMap_none_of_all {α β : Type} (f : α → Option β) (l : List α)
    (h : ∀ x ∈ l, f x = none) : l.filterMap f = [] := by
  induction l with
  | nil => rfl
  | cons a as ih =>
    rw [List.filterMap_cons, h a (List.mem_cons_self a as)]
    exact ih (fun x hx => h x (List.mem_cons_of_mem a hx))

theorem dupPass_key_none (l : List LineItem) (h : ∀ x ∈ l, itemKey x = none) :
    ∀ seen, dupPass seen l = [] := by
  induction l with
  | nil => intro seen; rfl
  | cons item rest ih =>
    intro seen
    rw [dupPass, h item (List.mem_cons_self item rest)]
    exact ih (fun x hx => h x (List.mem_cons_of_mem item hx)) seen

/-- C9: every line item produced by the parser's line-item pass has an absent
procedure code and an absent reference price, and consequently a bill whose
line items come solely from that pass can trigger none of the outlier-pricing,
duplicate, or invalid-code rules. -/
theorem c9_parser_items_inert (ms : List EobLineMatch) (bill : ParsedBill)
    (pricing : List (String × PyFloat)) (valid_codes : List String)
    (h : bill.line_items = parse_line_items ms) :
    (parse_line_items ms).all
        (fun it => it.cpt_code == none && it.national_average_price == none) = true
    ∧ check_outlier_pricing bill pricing = []
    ∧ check_duplicates bill = []
    ∧ check_invalid_cpt_codes bill valid_codes = [] := by
  have hcode : ∀ it ∈ parse_line_items ms, it.cpt_code = none := by
    intro it hit
    rcases List.mem_map.1 hit with ⟨m, _, rfl⟩
    rfl
  refine ⟨?_, ?_, ?_, ?_⟩
  · rw [List.all_eq_true]
    intro it hit
    rcases List.mem_map.1 hit with ⟨m, _, rfl⟩
    rfl
  · rw [outlier_filterMap, h]
    exact filterMap_none_of_all _ _ (fun it hit => by
      simp [outlierFlag, hcode it hit])
  · unfold check_duplicates
    split
    · rfl
    · rw [h]
      exact dupPass_key_none (parse_line_items ms)
        (fun x hx => by simp [itemKey, hcode x hx]) []
  · unfold check_invalid_cpt_codes
    split
    · rfl
    · rw [h]
      exact filterMap_none_of_all _ _ (fun it hit => by
        simp [hcode it hit])

/-- Witness for C9 at a concrete parsed line-item list. -/
theorem c9_parser_items_inert_witness :
    (parse_line_items [⟨"01/01/24", "10.00", "5.00"⟩]).all
        (fun it => it.cpt_code == none && it.national_average_price == none) = true
    ∧ check_outlier_pricing
        { raw_text := "t",
          line_items := parse_line_items [⟨"01/01/24", "10.00", "5.00"⟩] } [] = []
    ∧ check_duplicates
        { raw_text := "t",
          line_items := parse_line_items [⟨"01/01/24", "10.00", "5.00"⟩] } = []
    ∧ check_invalid_cpt_codes
        { raw_text := "t",
          line_items := parse_line_items [⟨"01/01/24", "10.00", "5.00"⟩] } [] = [] :=
  c9_parser_items_inert [⟨"01/01/24", "10.00", "5.00"⟩]
    { raw_text := "t", line_items := parse_line_items [⟨"01/01/24", "10.00", "5.00"⟩] }
    [] [] rfl
